import Mathlib

/-!
Shallow embedding of `apps/web/scripts/blender/merge_animations.py`, a
one-shot Blender CLI pipeline that merges FBX animation clips onto a master
armature as NLA tracks and exports a Draco-compressed GLB.

Host (Blender) behaviour that the script merely invokes — FBX import,
glTF export, the scene graph — is modelled as environment data: each
`bpy.ops.import_scene.fbx` call either raises or adds a batch of freshly
created objects to the scene and selects them, and the export call either
produces the output file or not.  Everything the script itself computes
(argument handling, glob selection, the per-file merge procedure, the
fatal/recoverable error branches, the exact export parameters) is embedded
as executable Lean definitions translated line by line from the source.
-/

namespace MergeAnimations

/-! ### Scene-graph data model (the slice of bpy the script touches) -/

/-- A motion-clip action: name plus integer frame range
(the script reads `int(action.frame_range[0])` / `[1]`). -/
structure Action where
  name : String
  frameStart : Int
  frameEnd : Int
deriving DecidableEq, Repr

/-- One NLA strip: `track.strips.new(anim_name, frame_start, action)`. -/
structure Strip where
  name : String
  start : Int
  action : Action
deriving DecidableEq, Repr

/-- One NLA track on an object's animation data. -/
structure Track where
  name : String
  strips : List Strip
deriving DecidableEq, Repr

/-- Embeds `obj.animation_data`: the active action (if any) and the NLA tracks. -/
structure AnimData where
  action : Option Action
  nlaTracks : List Track
deriving DecidableEq, Repr

/-- A scene object.  `id` models Python object identity (`obj != master_armature`),
`parent` the direct parent link (`obj.parent == imported_armature`). -/
structure Obj where
  id : Nat
  name : String
  otype : String
  parent : Option Nat
  animData : Option AnimData
deriving DecidableEq, Repr

/-- The NLA tracks of an object (empty when it has no animation data). -/
def tracksOf (o : Obj) : List Track :=
  (o.animData.map AnimData.nlaTracks).getD []

/-- The active action of an object (none when it has no animation data). -/
def actionOf (o : Obj) : Option Action :=
  o.animData.bind AnimData.action

/-! ### Path helpers: `os.path.basename` / `os.path.splitext` -/

/-- Index of the last occurrence of `c`, if any. -/
def lastIdxOf (c : Char) (cs : List Char) : Option Nat :=
  (List.range cs.length).foldl
    (fun acc i => if cs.getD i ' ' = c then some i else acc) none

/-- Embeds `os.path.basename`: the part after the last path separator. -/
def basename (p : String) : String :=
  match lastIdxOf '/' p.data with
  | none => p
  | some i => ⟨p.data.drop (i + 1)⟩

/-- Embeds `os.path.splitext(n)[0]`: drop the extension from the last dot, except
when every character before that dot is itself a dot (Python's rule that
leading dots of a basename never start an extension). -/
def splitextRoot (n : String) : String :=
  match lastIdxOf '.' n.data with
  | none => n
  | some i =>
      if (n.data.take i).all (fun c => c = '.') then n
      else ⟨n.data.take i⟩

/-- Embeds `os.path.splitext(os.path.basename(fbx_path))[0]` (line 152). -/
def animName (path : String) : String :=
  splitextRoot (basename path)

/-! ### Animation-file selection (lines 135-140)

`glob.glob(os.path.join(anims_dir, "*.fbx"))` plus the `*.FBX` variant,
then `sorted(set(...))`.  On a case-sensitive filesystem `glob` matches
the pattern's extension exactly; the wildcard `*` does not match a
leading dot. -/

/-- Does `glob`'s pattern `*<ext>` match directory entry `name`? -/
def globMatches (ext : String) (name : String) : Bool :=
  List.isSuffixOf ext.data name.data && !(name.data.getD 0 ' ' = '.')

/-- Insertion into a sorted list of strings (ascending, as Python `sorted`). -/
def insertStr (x : String) : List String → List String
  | [] => [x]
  | y :: ys => if x ≤ y then x :: y :: ys else y :: insertStr x ys

/-- Insertion sort on strings. -/
def sortStrings : List String → List String
  | [] => []
  | x :: xs => insertStr x (sortStrings xs)

/-- Lines 135-140: glob `*.fbx`, glob `*.FBX`, `sorted(set(...))`. -/
def selectFbxFiles (files : List String) : List String :=
  sortStrings ((files.filter (globMatches ".fbx")
      ++ files.filter (globMatches ".FBX")).dedup)

/-- The extension of a filename: the part after the last dot (empty if no dot). -/
def extAfterLastDot (n : String) : String :=
  match lastIdxOf '.' n.data with
  | none => ""
  | some i => ⟨n.data.drop (i + 1)⟩

/-- Modelled from the spec's words for comparison (claim C5): a file is
selected iff its extension equals `fbx` under case folding. -/
def spec_fbxCaseInsensitive (n : String) : Bool :=
  (extAfterLastDot n).data.map Char.toLower = "fbx".data

/-! ### Argument handling (lines 74-88) -/

/-- Embeds `argv = argv[argv.index("--") + 1:]` when `"--"` is present, else `[]`. -/
def argvAfterSep : List String → List String
  | [] => []
  | a :: rest => if a = "--" then rest else argvAfterSep rest

/-- The three parsed paths. -/
structure Config where
  master : String
  anims : String
  output : String
deriving DecidableEq, Repr

/-- The value supplied for `flag`: either the token after an exact `flag`
token, or the part after `=` in a `flag=value` token. -/
def flagValue (flag : String) : List String → Option String
  | [] => none
  | a :: rest =>
      if a = flag then rest.head?
      else if List.isPrefixOf (flag ++ "=").data a.data then
        some ⟨a.data.drop (flag.length + 1)⟩
      else flagValue flag rest

/-- Is `flag` present among the arguments (in either accepted form)? -/
def flagPresent (flag : String) (args : List String) : Bool :=
  args.any (fun a => a = flag || List.isPrefixOf (flag ++ "=").data a.data)

/-- Embeds `argparse` with the three required options `--master`, `--anims`,
`--output`: parsing succeeds only when each has a value. -/
def parseArgs (args : List String) : Option Config :=
  match flagValue "--master" args, flagValue "--anims" args,
        flagValue "--output" args with
  | some m, some a, some o => some ⟨m, a, o⟩
  | _, _, _ => none

/-! ### Export call (lines 220-236) -/

/-- The keyword arguments of the single `bpy.ops.export_scene.gltf` call. -/
structure GltfExportParams where
  filepath : String
  export_format : String
  export_animations : Bool
  export_nla_strips : Bool
  export_skins : Bool
  export_morph : Bool
  export_lights : Bool
  export_cameras : Bool
  export_apply : Bool
  export_draco_mesh_compression_enable : Bool
  export_draco_mesh_compression_level : Nat
  export_draco_position_quantization : Nat
  export_draco_normal_quantization : Nat
  export_draco_texcoord_quantization : Nat
deriving DecidableEq, Repr

/-- The export call exactly as written in the source. -/
def exportParams (output : String) : GltfExportParams where
  filepath := output
  export_format := "GLB"
  export_animations := true
  export_nla_strips := true
  export_skins := true
  export_morph := true
  export_lights := false
  export_cameras := false
  export_apply := true
  export_draco_mesh_compression_enable := true
  export_draco_mesh_compression_level := 10
  export_draco_position_quantization := 14
  export_draco_normal_quantization := 10
  export_draco_texcoord_quantization := 12

/-! ### The nuclear patch (lines 34-62)

The patched entity is the runtime class of `light.cycles`: modelled by
whether a `cast_shadow` property is installed on it, a property being a
getter and a setter over an opaque instance state (`Nat`).  The `try`
body can raise either while probing for the class (before the `setattr`)
or while removing the probe light (after it); `except Exception` turns
both into a printed warning. -/

/-- A Python `property`: getter and setter over an opaque instance state. -/
structure PropDef where
  get : Nat → Bool
  set : Nat → Bool → Nat

/-- The property installed by the patch:
`property(lambda self: True, lambda self, v: None)`. -/
def mockProp : PropDef where
  get := fun _ => true
  set := fun s _ => s

/-- The runtime class of `temp_light.cycles`, reduced to the one attribute
the script touches. -/
structure CyclesSettingsClass where
  castShadow : Option PropDef

/-- Where, if anywhere, the `try` body raises. -/
inductive PatchFail
  | probe    -- `bpy.data.lights.new` / class access, before the `setattr`
  | cleanup  -- `bpy.data.lights.remove`, after the `setattr`
deriving DecidableEq, Repr

/-- Lines 47-52: `setattr` only when `cast_shadow` is absent. -/
def installCastShadow (c : CyclesSettingsClass) : CyclesSettingsClass :=
  if c.castShadow.isSome then c else { c with castShadow := some mockProp }

/-- The `try` body: the class state it leaves behind and the exception it
raises, if any. -/
def patchBody (fail : Option PatchFail) (c : CyclesSettingsClass) :
    Option String × CyclesSettingsClass :=
  match fail with
  | some .probe => (some "probe failure", c)
  | some .cleanup => (some "cleanup failure", installCastShadow c)
  | none => (none, installCastShadow c)

/-- Outcome of `apply_nuclear_patch`: the class state, the warning printed
by the `except` clause, and any exception propagated to the caller. -/
structure PatchResult where
  cls : CyclesSettingsClass
  loggedWarning : Option String
  raised : Option String

/-- Lines 34-58: run the body; `except Exception as e` prints the warning
and returns normally. -/
def apply_nuclear_patch (fail : Option PatchFail) (c : CyclesSettingsClass) :
    PatchResult :=
  match patchBody fail c with
  | (some e, c') => { cls := c', loggedWarning := some e, raised := none }
  | (none, c') => { cls := c', loggedWarning := none, raised := none }

/-! ### Per-file merge procedure (lines 151-201)

One `bpy.ops.import_scene.fbx` call either raises, or adds a batch of
newly created objects to the scene and selects them
(`bpy.context.selected_objects`). -/

/-- Outcome of one import call, supplied by the host environment. -/
inductive ImportRes
  | err                                            -- the import call raises
  | ok (newObjs : List Obj) (selected : List Nat)  -- objects added and selected
deriving Repr

/-- How one animation file ended: merged, import raised, or no usable
animation data (no selected imported armature, no animation data, or no
action). -/
inductive FileStatus
  | merged
  | importError
  | noAnimData
deriving DecidableEq, Repr

/-- Embeds `bpy.data.objects` lookup by identity. -/
def lookupObj (objs : List Obj) (i : Nat) : Option Obj :=
  objs.find? (fun o => o.id = i)

/-- Lines 169-174: the first selected object of type ARMATURE that is not
the master armature. -/
def findImportedArmature (masterId : Nat) (objs : List Obj) :
    List Nat → Option Obj
  | [] => none
  | i :: rest =>
      match lookupObj objs i with
      | some o =>
          if o.otype = "ARMATURE" && o.id ≠ masterId then some o
          else findImportedArmature masterId objs rest
      | none => findImportedArmature masterId objs rest

/-- Line 178: `action.name = anim_name` on the imported armature's action. -/
def renameActionOn (impId : Nat) (newName : String) (o : Obj) : Obj :=
  if o.id = impId then
    { o with animData := o.animData.map (fun ad =>
        { ad with action := ad.action.map (fun a => { a with name := newName }) }) }
  else o

/-- Lines 181-188: create animation data on the master if absent, then a new
track named `tname` holding one strip of `act` starting at `act.frameStart`. -/
def addTrackTo (masterId : Nat) (tname : String) (act : Action) (o : Obj) : Obj :=
  if o.id = masterId then
    let ad := o.animData.getD { action := none, nlaTracks := [] }
    { o with animData := some { ad with nlaTracks := ad.nlaTracks ++
        [{ name := tname, strips := [{ name := tname, start := act.frameStart,
                                       action := act }] }] } }
  else o

/-- Lines 195-198: an object is selected for deletion iff it is the imported
armature or its direct parent is the imported armature. -/
def cleanupSelects (impId : Nat) (o : Obj) : Bool :=
  o.id = impId || o.parent = some impId

/-- Lines 151-201, the body of the loop for one file: import, find the
imported armature, and when it carries an action rename it, attach it as a
fresh NLA track on the master, and delete the imported armature and its
direct children; otherwise (or when the import raises) skip the file. -/
def processFile (masterId : Nat) (nm : String) (s : List Obj)
    (res : ImportRes) : List Obj × FileStatus :=
  match res with
  | .err => (s, .importError)
  | .ok newObjs sel =>
      let s1 := s ++ newObjs
      match findImportedArmature masterId s1 sel with
      | none => (s1, .noAnimData)
      | some imp =>
          match imp.animData.bind AnimData.action with
          | none => (s1, .noAnimData)
          | some act0 =>
              let act : Action := { act0 with name := nm }
              let s2 := (s1.map (renameActionOn imp.id nm)).map
                  (addTrackTo masterId nm act)
              (s2.filter (fun o => !cleanupSelects imp.id o), .merged)

/-- The whole loop: fold `processFile` over the selected files, recording
each file's status. -/
def processAll (imp : String → ImportRes) (masterId : Nat) :
    List String → List Obj → List Obj × List (String × FileStatus)
  | [], s => (s, [])
  | f :: rest, s =>
      let r := processFile masterId (animName f) s (imp f)
      let r2 := processAll imp masterId rest r.1
      (r2.1, (f, r.2) :: r2.2)

/-! ### The whole run (`main`, lines 71-251) -/

/-- The pipeline steps, in source order. -/
inductive Step
  | parse        -- lines 74-84
  | resetScene   -- line 104, `bpy.ops.wm.read_homefile`
  | openMaster   -- line 114, `bpy.ops.wm.open_mainfile`
  | findArmature -- lines 117-131
  | globFiles    -- lines 135-140
  | mergeLoop    -- lines 142-204
  | exportCall   -- lines 214-236
  | report       -- lines 239-251
deriving DecidableEq, Repr

/-- How the process ends. -/
inductive Outcome
  | exitParse         -- argparse error exit (missing required flag)
  | exitMasterMissing -- line 111, `sys.exit(1)`
  | exitNoArmature    -- line 129, `sys.exit(1)`
  | exitExportFailed  -- line 245, `sys.exit(1)`
  | success
deriving DecidableEq, Repr

/-- The process exit status, `none` meaning a normal (zero) exit. -/
def exitCode : Outcome → Option Nat
  | .exitParse => some 2
  | .exitMasterMissing => some 1
  | .exitNoArmature => some 1
  | .exitExportFailed => some 1
  | .success => none

/-- The warnings the run prints that concern the animation batch. -/
inductive Warning
  | noFbxFiles                 -- line 145
  | importError (file : String) -- line 165
  | noAnimData (file : String)  -- line 201
deriving DecidableEq, Repr

/-- Everything the host contributes to one invocation: the process argv,
whether the master file exists, the scene its load produces, the
animations-directory listing, what each import call does, and whether the
export call leaves the output file on disk. -/
structure Env where
  argv : List String
  masterExists : Bool
  masterObjects : List Obj
  animDirFiles : List String
  importRes : String → ImportRes
  outputExistsAfterExport : Bool

/-- Observable result of one run. -/
structure RunResult where
  outcome : Outcome
  steps : List Step
  chosenMasterId : Option Nat
  fileResults : List (String × FileStatus)
  successCount : Nat
  warnings : List Warning
  finalScene : List Obj
  exported : Option GltfExportParams
deriving Repr

/-- The warnings produced by the merge loop (lines 165 and 201). -/
def loopWarnings (results : List (String × FileStatus)) : List Warning :=
  results.filterMap (fun p =>
    match p.2 with
    | .importError => some (.importError p.1)
    | .noAnimData => some (.noAnimData p.1)
    | .merged => none)

/-- Embeds `main` (lines 71-251) as a function of the environment. -/
def main (env : Env) : RunResult :=
  match parseArgs (argvAfterSep env.argv) with
  | none =>
      { outcome := .exitParse, steps := [.parse], chosenMasterId := none,
        fileResults := [], successCount := 0, warnings := [],
        finalScene := [], exported := none }
  | some cfg =>
      if env.masterExists then
        match env.masterObjects.find? (fun o => o.otype = "ARMATURE") with
        | none =>
            { outcome := .exitNoArmature,
              steps := [.parse, .resetScene, .openMaster, .findArmature],
              chosenMasterId := none, fileResults := [], successCount := 0,
              warnings := [], finalScene := env.masterObjects,
              exported := none }
        | some master =>
            let files := selectFbxFiles env.animDirFiles
            let r := processAll env.importRes master.id files env.masterObjects
            let warns := (if files.isEmpty then [Warning.noFbxFiles] else [])
                ++ loopWarnings r.2
            let sc := (r.2.filter (fun p => p.2 = FileStatus.merged)).length
            if env.outputExistsAfterExport then
              { outcome := .success,
                steps := [.parse, .resetScene, .openMaster, .findArmature,
                          .globFiles, .mergeLoop, .exportCall, .report],
                chosenMasterId := some master.id, fileResults := r.2,
                successCount := sc, warnings := warns, finalScene := r.1,
                exported := some (exportParams cfg.output) }
            else
              { outcome := .exitExportFailed,
                steps := [.parse, .resetScene, .openMaster, .findArmature,
                          .globFiles, .mergeLoop, .exportCall],
                chosenMasterId := some master.id, fileResults := r.2,
                successCount := sc, warnings := warns, finalScene := r.1,
                exported := some (exportParams cfg.output) }
      else
        { outcome := .exitMasterMissing, steps := [.parse, .resetScene],
          chosenMasterId := none, fileResults := [], successCount := 0,
          warnings := [], finalScene := [], exported := none }

/-! ### Helper lemmas -/

lemma mem_insertStr {a x : String} {l : List String} :
    a ∈ insertStr x l ↔ a = x ∨ a ∈ l := by
  induction l with
  | nil => simp [insertStr]
  | cons y ys ih =>
      by_cases h : x ≤ y
      · simp [insertStr, h]
      · simp [insertStr, h, ih]
        tauto

lemma mem_sortStrings {a : String} {l : List String} :
    a ∈ sortStrings l ↔ a ∈ l := by
  induction l with
  | nil => simp [sortStrings]
  | cons x xs ih => simp [sortStrings, mem_insertStr, ih]

lemma mem_selectFbxFiles {f : String} {files : List String} :
    f ∈ selectFbxFiles files ↔
      f ∈ files ∧ (globMatches ".fbx" f = true ∨ globMatches ".FBX" f = true) := by
  simp only [selectFbxFiles, mem_sortStrings, List.mem_dedup, List.mem_append,
    List.mem_filter]
  tauto

lemma flagValue_eq_none {flag : String} {args : List String}
    (h : flagPresent flag args = false) : flagValue flag args = none := by
  induction args with
  | nil => rfl
  | cons a rest ih =>
      simp only [flagPresent, List.any_cons, Bool.or_eq_false_iff] at h
      obtain ⟨h1, h2⟩ := h
      simp only [Bool.or_eq_false_iff, decide_eq_false_iff_not] at h1
      rw [flagValue]
      rw [if_neg h1.1, if_neg (by rw [h1.2]; exact Bool.false_ne_true)]
      exact ih h2

lemma parseArgs_eq_none {args : List String}
    (h : flagValue "--master" args = none ∨ flagValue "--anims" args = none
       ∨ flagValue "--output" args = none) : parseArgs args = none := by
  unfold parseArgs
  cases h1 : flagValue "--master" args <;> cases h2 : flagValue "--anims" args <;>
    cases h3 : flagValue "--output" args <;> simp_all

lemma argvAfterSep_eq_nil {l : List String} (h : "--" ∉ l) :
    argvAfterSep l = [] := by
  induction l with
  | nil => rfl
  | cons a rest ih =>
      simp only [List.mem_cons, not_or] at h
      rw [argvAfterSep, if_neg (fun hc => h.1 hc.symm)]
      exact ih h.2

/-! ### C4: the export call and its fixed compression parameters -/

/-- C4: whenever the pipeline reaches the export step (arguments parse, the
master file exists, an armature is found), exactly one export call is made,
as a compressed binary GLB with animations and NLA strips enabled, skins and
morph targets enabled, lights and cameras excluded, and the fixed
maximum-compression Draco parameters: compression level 10, position
quantization 14, normal quantization 10, texcoord quantization 12. -/
theorem export_call_fixed_params (env : Env) (cfg : Config) (a : Obj)
    (hp : parseArgs (argvAfterSep env.argv) = some cfg)
    (hm : env.masterExists = true)
    (ha : env.masterObjects.find? (fun o => o.otype = "ARMATURE") = some a) :
    (main env).exported = some (exportParams cfg.output)
    ∧ (exportParams cfg.output).export_format = "GLB"
    ∧ (exportParams cfg.output).export_animations = true
    ∧ (exportParams cfg.output).export_nla_strips = true
    ∧ (exportParams cfg.output).export_skins = true
    ∧ (exportParams cfg.output).export_morph = true
    ∧ (exportParams cfg.output).export_lights = false
    ∧ (exportParams cfg.output).export_cameras = false
    ∧ (exportParams cfg.output).export_apply = true
    ∧ (exportParams cfg.output).export_draco_mesh_compression_enable = true
    ∧ (exportParams cfg.output).export_draco_mesh_compression_level = 10
    ∧ (exportParams cfg.output).export_draco_position_quantization = 14
    ∧ (exportParams cfg.output).export_draco_normal_quantization = 10
    ∧ (exportParams cfg.output).export_draco_texcoord_quantization = 12 := by
  obtain ⟨argv, me, mo, adf, ir, oe⟩ := env
  simp only at hp hm ha
  subst hm
  simp only [main, hp, ha, if_true]
  cases oe <;> simp [exportParams]

def rigObj : Obj :=
  { id := 0, name := "Rig", otype := "ARMATURE", parent := none, animData := none }

def baseArgv : List String :=
  ["blender", "--", "--master", "m.blend", "--anims", "anims", "--output", "out.glb"]

def baseCfg : Config := { master := "m.blend", anims := "anims", output := "out.glb" }

def envC4 : Env :=
  { argv := baseArgv, masterExists := true, masterObjects := [rigObj],
    animDirFiles := [], importRes := fun _ => ImportRes.err,
    outputExistsAfterExport := true }

/-- Witness for C4 at a concrete environment. -/
theorem export_call_fixed_params_witness :
    (main envC4).exported = some (exportParams "out.glb") :=
  (export_call_fixed_params envC4 baseCfg rigObj (by decide) (by decide)
    (by decide)).1

/-! ### C5: animation-file selection is NOT case-insensitive -/

/-- C5 counterexample: `walk.Fbx` has extension `fbx` under case folding but
is not selected by the glob pair `*.fbx` / `*.FBX`. -/
theorem mixed_case_fbx_not_selected :
    spec_fbxCaseInsensitive "walk.Fbx" = true
    ∧ "walk.Fbx" ∈ (["walk.Fbx"] : List String)
    ∧ "walk.Fbx" ∉ selectFbxFiles ["walk.Fbx"] := by decide

/-- C5 (amended): a directory entry is selected iff it is in the listing,
its name ends with exactly `.fbx` or exactly `.FBX` (case-sensitive), and
its name does not begin with a dot; mixed-case variants such as `.Fbx` are
not selected. -/
theorem fbx_selection_exact_extensions (files : List String) (f : String) :
    f ∈ selectFbxFiles files ↔
      f ∈ files ∧ (".fbx".data <:+ f.data ∨ ".FBX".data <:+ f.data)
        ∧ f.data.getD 0 ' ' ≠ '.' := by
  rw [mem_selectFbxFiles]
  simp only [globMatches, Bool.and_eq_true, List.isSuffixOf_iff_suffix,
    Bool.not_eq_true', decide_eq_false_iff_not]
  tauto

/-! ### C6: all three CLI flags are required -/

/-- C6: only arguments after a `--` separator are parsed (none without a
separator), and when any of `--master`, `--anims`, `--output` is absent,
argument parsing terminates the process before the scene is reset, before
any file is loaded, and before anything is exported. -/
theorem missing_flag_exits_before_pipeline (env : Env)
    (h : flagPresent "--master" (argvAfterSep env.argv) = false
       ∨ flagPresent "--anims" (argvAfterSep env.argv) = false
       ∨ flagPresent "--output" (argvAfterSep env.argv) = false) :
    (∀ l : List String, "--" ∉ l → argvAfterSep l = [])
    ∧ (main env).outcome = Outcome.exitParse
    ∧ (main env).steps = [Step.parse]
    ∧ Step.resetScene ∉ (main env).steps
    ∧ Step.openMaster ∉ (main env).steps
    ∧ Step.exportCall ∉ (main env).steps
    ∧ (main env).exported = none := by
  have hnone : parseArgs (argvAfterSep env.argv) = none :=
    parseArgs_eq_none (h.imp (fun h1 => flagValue_eq_none h1)
      (fun h2 => h2.imp (fun h1 => flagValue_eq_none h1)
        (fun h1 => flagValue_eq_none h1)))
  refine ⟨fun l hl => argvAfterSep_eq_nil hl, ?_⟩
  simp [main, hnone]

def envC6 : Env :=
  { argv := ["blender", "--background"], masterExists := true,
    masterObjects := [rigObj], animDirFiles := [],
    importRes := fun _ => ImportRes.err, outputExistsAfterExport := true }

/-- Witness for C6 at a concrete environment (no `--` separator at all). -/
theorem missing_flag_exits_before_pipeline_witness :
    (main envC6).outcome = Outcome.exitParse :=
  (missing_flag_exits_before_pipeline envC6 (Or.inl (by decide))).2.1

/-! ### C7: the nuclear patch is exception-safe and idempotent -/

/-- C7: `apply_nuclear_patch` never propagates an exception (every failure
of the body is caught and logged); when the class already has `cast_shadow`
it is left unchanged, otherwise (when the probe succeeds) a `cast_shadow`
property is installed whose every read returns `True` and whose every write
discards the value; and applying the patch twice yields the same class
state as applying it once. -/
theorem nuclear_patch_safe_idempotent (fail : Option PatchFail)
    (c : CyclesSettingsClass) :
    (apply_nuclear_patch fail c).raised = none
    ∧ (fail ≠ none → (apply_nuclear_patch fail c).loggedWarning ≠ none)
    ∧ (c.castShadow.isSome = true → (apply_nuclear_patch fail c).cls = c)
    ∧ (c.castShadow = none → fail ≠ some PatchFail.probe →
        (apply_nuclear_patch fail c).cls = { castShadow := some mockProp })
    ∧ (∀ s v, mockProp.get s = true ∧ mockProp.set s v = s)
    ∧ (apply_nuclear_patch fail (apply_nuclear_patch fail c).cls).cls
        = (apply_nuclear_patch fail c).cls := by
  obtain ⟨cs⟩ := c
  cases fail with
  | none =>
      cases cs <;>
        simp [apply_nuclear_patch, patchBody, installCastShadow, mockProp]
  | some pf =>
      cases pf <;> cases cs <;>
        simp [apply_nuclear_patch, patchBody, installCastShadow, mockProp]

/-- Witness for C7 at a concrete class state. -/
theorem nuclear_patch_safe_idempotent_witness :
    (apply_nuclear_patch none { castShadow := none }).raised = none :=
  (nuclear_patch_safe_idempotent none { castShadow := none }).1

/-! ### C1: exit status 1 in exactly three fatal situations -/

/-- C1: once arguments parse, the process exits with status 1 in exactly
three situations — the master file is missing, no armature is found in the
loaded master file, or the output file does not exist after the export
call — and in each situation the exit happens before any further pipeline
step runs (before the master is opened; before the files are globbed;
before the final report). -/
theorem exit1_exactly_three_fatal (env : Env) (cfg : Config)
    (hp : parseArgs (argvAfterSep env.argv) = some cfg) :
    (exitCode (main env).outcome = some 1 ↔
       (env.masterExists = false
        ∨ (env.masterExists = true
            ∧ env.masterObjects.find? (fun o => o.otype = "ARMATURE") = none)
        ∨ (env.masterExists = true
            ∧ (env.masterObjects.find? (fun o => o.otype = "ARMATURE")).isSome
              = true
            ∧ env.outputExistsAfterExport = false)))
    ∧ (env.masterExists = false →
        (main env).outcome = Outcome.exitMasterMissing
        ∧ (main env).steps = [Step.parse, Step.resetScene])
    ∧ (env.masterExists = true →
        env.masterObjects.find? (fun o => o.otype = "ARMATURE") = none →
        (main env).outcome = Outcome.exitNoArmature
        ∧ (main env).steps
            = [Step.parse, Step.resetScene, Step.openMaster, Step.findArmature])
    ∧ (env.masterExists = true →
        (env.masterObjects.find? (fun o => o.otype = "ARMATURE")).isSome = true →
        env.outputExistsAfterExport = false →
        (main env).outcome = Outcome.exitExportFailed
        ∧ (main env).steps
            = [Step.parse, Step.resetScene, Step.openMaster, Step.findArmature,
               Step.globFiles, Step.mergeLoop, Step.exportCall]) := by
  obtain ⟨argv, me, mo, adf, ir, oe⟩ := env
  simp only at hp ⊢
  cases me with
  | false => simp [main, hp, exitCode]
  | true =>
      cases ha : mo.find? (fun o => o.otype = "ARMATURE") with
      | none => simp [main, hp, ha, exitCode]
      | some a => cases oe <;> simp [main, hp, ha, exitCode]

def envC1 : Env :=
  { argv := baseArgv, masterExists := false, masterObjects := [],
    animDirFiles := [], importRes := fun _ => ImportRes.err,
    outputExistsAfterExport := false }

/-- Witness for C1: a missing master file exits with status 1 right after
the scene reset. -/
theorem exit1_exactly_three_fatal_witness :
    exitCode (main envC1).outcome = some 1 :=
  (exit1_exactly_three_fatal envC1 baseCfg (by decide)).1.mpr (Or.inl rfl)

/-! ### C10: an empty animation batch is not an error -/

/-- C10: when the animations directory yields no matching files the run
warns, skips the merge loop entirely (no per-file results, success count
0), still exports the base model unchanged, and exits successfully exactly
when the export produced the output file. -/
theorem empty_batch_not_error (env : Env) (cfg : Config) (a : Obj)
    (hp : parseArgs (argvAfterSep env.argv) = some cfg)
    (hm : env.masterExists = true)
    (ha : env.masterObjects.find? (fun o => o.otype = "ARMATURE") = some a)
    (hempty : selectFbxFiles env.animDirFiles = []) :
    (main env).successCount = 0
    ∧ (main env).fileResults = []
    ∧ Warning.noFbxFiles ∈ (main env).warnings
    ∧ (main env).finalScene = env.masterObjects
    ∧ (main env).exported = some (exportParams cfg.output)
    ∧ ((main env).outcome = Outcome.success ↔ env.outputExistsAfterExport = true)
    ∧ (env.outputExistsAfterExport = true → exitCode (main env).outcome = none) := by
  obtain ⟨argv, me, mo, adf, ir, oe⟩ := env
  simp only at hp hm ha hempty ⊢
  subst hm
  cases oe <;>
    simp [main, hp, ha, hempty, processAll, loopWarnings, exitCode]

def envC10 : Env :=
  { argv := baseArgv, masterExists := true, masterObjects := [rigObj],
    animDirFiles := ["readme.txt"], importRes := fun _ => ImportRes.err,
    outputExistsAfterExport := true }

/-- Witness for C10 at a concrete environment with no FBX files. -/
theorem empty_batch_not_error_witness :
    (main envC10).successCount = 0 :=
  (empty_batch_not_error envC10 baseCfg rigObj (by decide) (by decide)
    (by decide) (by decide)).1

/-! ### C2: per-file failures are non-fatal -/

lemma processAll_map_fst (imp : String → ImportRes) (masterId : Nat)
    (files : List String) (s : List Obj) :
    ((processAll imp masterId files s).2).map Prod.fst = files := by
  induction files generalizing s with
  | nil => rfl
  | cons f rest ih => simp [processAll, ih]

lemma mem_loopWarnings_importError {f : String}
    {res : List (String × FileStatus)} (h : (f, FileStatus.importError) ∈ res) :
    Warning.importError f ∈ loopWarnings res := by
  simp only [loopWarnings, List.mem_filterMap]
  exact ⟨(f, FileStatus.importError), h, rfl⟩

lemma mem_loopWarnings_noAnimData {f : String}
    {res : List (String × FileStatus)} (h : (f, FileStatus.noAnimData) ∈ res) :
    Warning.noAnimData f ∈ loopWarnings res := by
  simp only [loopWarnings, List.mem_filterMap]
  exact ⟨(f, FileStatus.noAnimData), h, rfl⟩

lemma mem_loopWarnings_shape {w : Warning} {res : List (String × FileStatus)}
    (h : w ∈ loopWarnings res) :
    (∃ f, w = Warning.importError f) ∨ (∃ f, w = Warning.noAnimData f) := by
  simp only [loopWarnings, List.mem_filterMap] at h
  obtain ⟨⟨f, st⟩, _, hw⟩ := h
  cases st with
  | merged => simp at hw
  | importError => exact Or.inl ⟨f, (Option.some.inj hw).symm⟩
  | noAnimData => exact Or.inr ⟨f, (Option.some.inj hw).symm⟩

/-- Characterization of `main` once the loop is reached: arguments parse,
the master exists, and an armature is found. -/
lemma main_reaches_loop (argv : List String) (mo : List Obj)
    (adf : List String) (ir : String → ImportRes) (oe : Bool)
    (cfg : Config) (a : Obj)
    (hp : parseArgs (argvAfterSep argv) = some cfg)
    (ha : mo.find? (fun o => o.otype = "ARMATURE") = some a) :
    (main ⟨argv, true, mo, adf, ir, oe⟩).fileResults
        = (processAll ir a.id (selectFbxFiles adf) mo).2
    ∧ (main ⟨argv, true, mo, adf, ir, oe⟩).successCount
        = ((processAll ir a.id (selectFbxFiles adf) mo).2.filter
            (fun p => p.2 = FileStatus.merged)).length
    ∧ (main ⟨argv, true, mo, adf, ir, oe⟩).warnings
        = (if (selectFbxFiles adf).isEmpty then [Warning.noFbxFiles] else [])
          ++ loopWarnings (processAll ir a.id (selectFbxFiles adf) mo).2
    ∧ (main ⟨argv, true, mo, adf, ir, oe⟩).finalScene
        = (processAll ir a.id (selectFbxFiles adf) mo).1
    ∧ (main ⟨argv, true, mo, adf, ir, oe⟩).chosenMasterId = some a.id
    ∧ (main ⟨argv, true, mo, adf, ir, oe⟩).exported
        = some (exportParams cfg.output)
    ∧ (main ⟨argv, true, mo, adf, ir, oe⟩).outcome
        = (if oe then Outcome.success else Outcome.exitExportFailed) := by
  cases oe <;> simp [main, hp, ha]

/-- C2: once the loop is reached, a failed import or a clip with no usable
animation data is logged and skipped: every selected file gets a per-file
result, failed files contribute nothing to the success count (which counts
exactly the merged files), and the process outcome depends only on the
export — never on a file failure. -/
theorem per_file_failures_nonfatal (env : Env) (cfg : Config) (a : Obj)
    (hp : parseArgs (argvAfterSep env.argv) = some cfg)
    (hm : env.masterExists = true)
    (ha : env.masterObjects.find? (fun o => o.otype = "ARMATURE") = some a) :
    ((main env).outcome = Outcome.success ↔ env.outputExistsAfterExport = true)
    ∧ ((main env).outcome = Outcome.exitExportFailed
        ↔ env.outputExistsAfterExport = false)
    ∧ (main env).fileResults.map Prod.fst = selectFbxFiles env.animDirFiles
    ∧ (main env).successCount
        = ((main env).fileResults.filter
            (fun p => p.2 = FileStatus.merged)).length
    ∧ (∀ f st, (f, st) ∈ (main env).fileResults →
        (st = FileStatus.importError →
          Warning.importError f ∈ (main env).warnings)
        ∧ (st = FileStatus.noAnimData →
          Warning.noAnimData f ∈ (main env).warnings)) := by
  obtain ⟨argv, me, mo, adf, ir, oe⟩ := env
  simp only at hp hm ha ⊢
  subst hm
  obtain ⟨hres, hsc, hw, -, -, -, hout⟩ := main_reaches_loop argv mo adf ir oe cfg a hp ha
  refine ⟨?_, ?_, ?_, ?_, ?_⟩
  · rw [hout]; cases oe <;> simp
  · rw [hout]; cases oe <;> simp
  · rw [hres, processAll_map_fst]
  · rw [hsc, hres]
  · intro f st hmem
    rw [hres] at hmem
    rw [hw]
    constructor
    · rintro rfl
      exact List.mem_append_right _ (mem_loopWarnings_importError hmem)
    · rintro rfl
      exact List.mem_append_right _ (mem_loopWarnings_noAnimData hmem)

def envC2 : Env :=
  { argv := baseArgv, masterExists := true, masterObjects := [rigObj],
    animDirFiles := ["walk.fbx", "run.fbx"], importRes := fun _ => ImportRes.err,
    outputExistsAfterExport := true }

/-- Witness for C2: with every import failing, both files are still
processed and the run still reaches a successful export. -/
theorem per_file_failures_nonfatal_witness :
    (main envC2).fileResults.map Prod.fst = selectFbxFiles envC2.animDirFiles :=
  (per_file_failures_nonfatal envC2 baseCfg rigObj (by decide) (by decide)
    (by decide)).2.2.1

/-! ### C9: the first armature in scene order is chosen, silently -/

lemma addTrackTo_eq_of_ne {masterId : Nat} {nm : String} {act : Action}
    {o : Obj} (h : ¬ o.id = masterId) : addTrackTo masterId nm act o = o := by
  simp [addTrackTo, h]

lemma renameActionOn_eq_of_ne {impId : Nat} {nm : String} {o : Obj}
    (h : ¬ o.id = impId) : renameActionOn impId nm o = o := by
  simp [renameActionOn, h]

/-- C9: the master skeleton is the first object of type ARMATURE in the
scene's object order; with a second armature present the run proceeds with
the first one, every warning it can emit concerns the animation batch (none
mentions the other armatures), and a track is only ever attached to the
chosen armature. -/
theorem first_armature_silently_chosen (env : Env) (cfg : Config) (a b : Obj)
    (hp : parseArgs (argvAfterSep env.argv) = some cfg)
    (hm : env.masterExists = true)
    (ha : env.masterObjects.find? (fun o => o.otype = "ARMATURE") = some a)
    (hb : b ∈ env.masterObjects) (_hbarm : b.otype = "ARMATURE")
    (_hab : b ≠ a) :
    (main env).chosenMasterId = some a.id
    ∧ (∃ pre post, env.masterObjects = pre ++ a :: post
        ∧ ∀ o ∈ pre, o.otype ≠ "ARMATURE")
    ∧ (main env).outcome ≠ Outcome.exitNoArmature
    ∧ (∀ w ∈ (main env).warnings,
        w = Warning.noFbxFiles ∨ (∃ f, w = Warning.importError f)
          ∨ (∃ f, w = Warning.noAnimData f))
    ∧ (∀ nm act o, o.id ≠ a.id → addTrackTo a.id nm act o = o) := by
  obtain ⟨argv, me, mo, adf, ir, oe⟩ := env
  simp only at hp hm ha hb ⊢
  subst hm
  obtain ⟨-, -, hw, -, hcm, -, hout⟩ :=
    main_reaches_loop argv mo adf ir oe cfg a hp ha
  refine ⟨hcm, ?_, ?_, ?_, ?_⟩
  · obtain ⟨hpa, as, bs, heq, hnot⟩ := List.find?_eq_some.mp ha
    refine ⟨as, bs, heq, fun o ho => ?_⟩
    simpa using hnot o ho
  · rw [hout]; cases oe <;> simp
  · intro w hwmem
    rw [hw] at hwmem
    rcases List.mem_append.mp hwmem with h1 | h2
    · by_cases he : (selectFbxFiles adf).isEmpty
      · rw [if_pos he] at h1
        simp only [List.mem_singleton] at h1
        exact Or.inl h1
      · rw [if_neg he] at h1
        simp at h1
    · rcases mem_loopWarnings_shape h2 with ⟨f, rfl⟩ | ⟨f, rfl⟩
      · exact Or.inr (Or.inl ⟨f, rfl⟩)
      · exact Or.inr (Or.inr ⟨f, rfl⟩)
  · intro nm act o hne
    exact addTrackTo_eq_of_ne hne

def rig2Obj : Obj :=
  { id := 3, name := "Rig2", otype := "ARMATURE", parent := none,
    animData := none }

def envC9 : Env :=
  { argv := baseArgv, masterExists := true, masterObjects := [rigObj, rig2Obj],
    animDirFiles := [], importRes := fun _ => ImportRes.err,
    outputExistsAfterExport := true }

/-- Witness for C9: with two armatures in the master scene, the first is
chosen. -/
theorem first_armature_silently_chosen_witness :
    (main envC9).chosenMasterId = some rigObj.id :=
  (first_armature_silently_chosen envC9 baseCfg rigObj rig2Obj (by decide)
    (by decide) (by decide) (by decide) (by decide) (by decide)).1

/-! ### Helper lemmas for the per-file step (C3, C8) -/

lemma findImportedArmature_spec {masterId : Nat} {objs : List Obj}
    {sel : List Nat} {imp : Obj}
    (h : findImportedArmature masterId objs sel = some imp) :
    imp ∈ objs ∧ imp.otype = "ARMATURE" ∧ imp.id ≠ masterId ∧ imp.id ∈ sel := by
  induction sel with
  | nil => simp [findImportedArmature] at h
  | cons i rest ih =>
      rw [findImportedArmature] at h
      cases hl : lookupObj objs i with
      | none =>
          rw [hl] at h
          obtain ⟨h1, h2, h3, h4⟩ := ih h
          exact ⟨h1, h2, h3, List.mem_cons_of_mem _ h4⟩
      | some o =>
          rw [hl] at h
          dsimp only at h
          by_cases hc :
              (decide (o.otype = "ARMATURE") && decide (o.id ≠ masterId)) = true
          · rw [if_pos hc] at h
            obtain rfl : o = imp := Option.some.inj h
            simp only [Bool.and_eq_true, decide_eq_true_eq] at hc
            have hmem : o ∈ objs := List.mem_of_find?_eq_some hl
            have hid : o.id = i := by simpa using List.find?_some hl
            exact ⟨hmem, hc.1, hc.2, hid ▸ List.mem_cons_self i rest⟩
          · rw [if_neg hc] at h
            obtain ⟨h1, h2, h3, h4⟩ := ih h
            exact ⟨h1, h2, h3, List.mem_cons_of_mem _ h4⟩

/-- The NLA track the per-file step appends: one strip holding `act`,
track and strip both named `nm`, starting at the action's first frame. -/
def newTrack (nm : String) (act : Action) : Track :=
  { name := nm
    strips := [{ name := nm, start := act.frameStart, action := act }] }

lemma addTrackTo_fields {masterId : Nat} {nm : String} {act : Action} {o : Obj}
    (h : o.id = masterId) :
    (addTrackTo masterId nm act o).id = o.id
    ∧ (addTrackTo masterId nm act o).name = o.name
    ∧ (addTrackTo masterId nm act o).otype = o.otype
    ∧ (addTrackTo masterId nm act o).parent = o.parent
    ∧ actionOf (addTrackTo masterId nm act o) = actionOf o
    ∧ tracksOf (addTrackTo masterId nm act o)
        = tracksOf o ++ [newTrack nm act] := by
  cases had : o.animData <;>
    simp [addTrackTo, h, tracksOf, actionOf, had, newTrack]

lemma processFile_merged {masterId : Nat} {nm : String} {s newObjs : List Obj}
    {sel : List Nat} {imp : Obj} {act0 : Action}
    (himp : findImportedArmature masterId (s ++ newObjs) sel = some imp)
    (hact : imp.animData.bind AnimData.action = some act0) :
    processFile masterId nm s (.ok newObjs sel)
      = ((((s ++ newObjs).map (renameActionOn imp.id nm)).map
            (addTrackTo masterId nm { act0 with name := nm })).filter
          (fun o => !cleanupSelects imp.id o), .merged) := by
  simp [processFile, himp, hact]

lemma master_survives_merge {masterId : Nat} {nm : String}
    {s newObjs : List Obj} {sel : List Nat} {master imp : Obj} {act0 : Action}
    (hm : master ∈ s) (hmid : master.id = masterId)
    (hfresh : ∀ o ∈ newObjs, o.id ∉ s.map Obj.id)
    (hpar : ∀ p, master.parent = some p → p ∈ s.map Obj.id)
    (hsel : ∀ i ∈ sel, i ∈ newObjs.map Obj.id)
    (himp : findImportedArmature masterId (s ++ newObjs) sel = some imp)
    (hact : imp.animData.bind AnimData.action = some act0) :
    addTrackTo masterId nm { act0 with name := nm } master
      ∈ (processFile masterId nm s (.ok newObjs sel)).1 := by
  have hselimp : imp.id ∈ sel := (findImportedArmature_spec himp).2.2.2
  have himpFresh : imp.id ∉ s.map Obj.id := by
    obtain ⟨o, ho, hoid⟩ := List.mem_map.mp (hsel imp.id hselimp)
    exact hoid ▸ hfresh o ho
  have hne : master.id ≠ imp.id := fun he =>
    himpFresh (he ▸ List.mem_map_of_mem Obj.id hm)
  rw [processFile_merged himp hact]
  apply List.mem_filter.mpr
  constructor
  · apply List.mem_map_of_mem
    exact List.mem_map.mpr
      ⟨master, List.mem_append_left _ hm, renameActionOn_eq_of_ne hne⟩
  · have hfields :=
      @addTrackTo_fields masterId nm { act0 with name := nm } master hmid
    simp only [cleanupSelects, Bool.not_eq_true', Bool.or_eq_false_iff,
      decide_eq_false_iff_not]
    refine ⟨by rw [hfields.1]; exact hne, ?_⟩
    rw [hfields.2.2.2.1]
    intro hps
    exact himpFresh (hpar imp.id hps)

/-! ### C3 (corrected): the per-file procedure; cleanup only on success -/

def takeAct : Action := { name := "Take 001", frameStart := 1, frameEnd := 40 }

def impObjAct : Obj :=
  { id := 1, name := "Imported", otype := "ARMATURE", parent := none,
    animData := some { action := some takeAct, nlaTracks := [] } }

def impObjNoAct : Obj :=
  { id := 1, name := "Imported", otype := "ARMATURE", parent := none,
    animData := some { action := none, nlaTracks := [] } }

/-- C3 counterexample: when the imported armature has no action the merge
fails and the imported scene objects are NOT deleted — the imported
armature is still in the scene after the per-file step. -/
theorem imported_objects_survive_failed_merge :
    (processFile 0 (animName "walk.fbx") [rigObj]
        (ImportRes.ok [impObjNoAct] [1])).2 = FileStatus.noAnimData
    ∧ impObjNoAct ∈ (processFile 0 (animName "walk.fbx") [rigObj]
        (ImportRes.ok [impObjNoAct] [1])).1 := by decide

/-- C3 (amended): per animation file the procedure imports the file, and —
only when a selected imported armature with an action is found — renames
that action to the file's basename without extension, creates one new NLA
track on the master holding one strip of that action starting at the
action's first frame, and deletes the imported armature and the objects
directly parented to it; when the import raises or no usable animation
data is found, the file is skipped and the imported objects all remain in
the scene. -/
theorem per_file_merge_procedure (masterId : Nat) (f : String)
    (s newObjs : List Obj) (sel : List Nat) (master imp : Obj) (act0 : Action)
    (hm : master ∈ s) (hmid : master.id = masterId)
    (hfresh : ∀ o ∈ newObjs, o.id ∉ s.map Obj.id)
    (hpar : ∀ p, master.parent = some p → p ∈ s.map Obj.id)
    (hsel : ∀ i ∈ sel, i ∈ newObjs.map Obj.id)
    (himp : findImportedArmature masterId (s ++ newObjs) sel = some imp)
    (hact : imp.animData.bind AnimData.action = some act0) :
    (processFile masterId (animName f) s (.ok newObjs sel)).2
        = FileStatus.merged
    ∧ (∀ o ∈ (processFile masterId (animName f) s (.ok newObjs sel)).1,
        o.id ≠ imp.id ∧ o.parent ≠ some imp.id)
    ∧ (∃ master',
        master' ∈ (processFile masterId (animName f) s (.ok newObjs sel)).1
        ∧ master'.id = master.id
        ∧ tracksOf master' = tracksOf master
            ++ [newTrack (animName f) { act0 with name := animName f }])
    ∧ (∀ (newObjs2 : List Obj) (sel2 : List Nat),
        findImportedArmature masterId (s ++ newObjs2) sel2 = none →
        processFile masterId (animName f) s (.ok newObjs2 sel2)
          = (s ++ newObjs2, FileStatus.noAnimData))
    ∧ (∀ (newObjs2 : List Obj) (sel2 : List Nat) (imp2 : Obj),
        findImportedArmature masterId (s ++ newObjs2) sel2 = some imp2 →
        imp2.animData.bind AnimData.action = none →
        processFile masterId (animName f) s (.ok newObjs2 sel2)
          = (s ++ newObjs2, FileStatus.noAnimData))
    ∧ processFile masterId (animName f) s ImportRes.err
        = (s, FileStatus.importError) := by
  refine ⟨?_, ?_, ?_, ?_, ?_, rfl⟩
  · rw [processFile_merged himp hact]
  · intro o ho
    rw [processFile_merged himp hact] at ho
    have := (List.mem_filter.mp ho).2
    simp only [cleanupSelects, Bool.not_eq_true', Bool.or_eq_false_iff,
      decide_eq_false_iff_not] at this
    exact this
  · refine ⟨addTrackTo masterId (animName f) { act0 with name := animName f }
      master, master_survives_merge hm hmid hfresh hpar hsel himp hact, ?_, ?_⟩
    · exact (addTrackTo_fields hmid).1
    · exact (addTrackTo_fields hmid).2.2.2.2.2
  · intro newObjs2 sel2 hnone
    simp [processFile, hnone]
  · intro newObjs2 sel2 imp2 himp2 hact2
    simp [processFile, himp2, hact2]

/-- Witness for C3 at a concrete per-file step that merges successfully. -/
theorem per_file_merge_procedure_witness :
    (processFile 0 (animName "walk.fbx") [rigObj]
        (ImportRes.ok [impObjAct] [1])).2 = FileStatus.merged :=
  (per_file_merge_procedure 0 "walk.fbx" [rigObj] [impObjAct] [1] rigObj
    impObjAct takeAct (by decide) (by decide) (by decide)
    (by intro p h; simp [rigObj] at h) (by decide) (by decide) (by decide)).1

/-! ### C8: the master armature is never deleted -/

/-- C8: in every loop iteration the per-file search excludes the master
armature, and the per-file step keeps the master in the scene with its
identity, type, parent, active action and all NLA tracks accumulated so
far intact (the step can only append a track). -/
theorem master_never_deleted (masterId : Nat) (nm : String) (s : List Obj)
    (res : ImportRes) (master : Obj)
    (hm : master ∈ s) (hmid : master.id = masterId)
    (hpar : ∀ p, master.parent = some p → p ∈ s.map Obj.id)
    (hok : ∀ newObjs sel, res = ImportRes.ok newObjs sel →
        (∀ o ∈ newObjs, o.id ∉ s.map Obj.id)
        ∧ ∀ i ∈ sel, i ∈ newObjs.map Obj.id) :
    (∀ newObjs sel imp, res = ImportRes.ok newObjs sel →
        findImportedArmature masterId (s ++ newObjs) sel = some imp →
        imp.id ≠ masterId ∧ imp.id ≠ master.id)
    ∧ ∃ master', master' ∈ (processFile masterId nm s res).1
        ∧ master'.id = master.id ∧ master'.name = master.name
        ∧ master'.otype = master.otype ∧ master'.parent = master.parent
        ∧ actionOf master' = actionOf master
        ∧ tracksOf master <+: tracksOf master' := by
  constructor
  · intro newObjs sel imp _ himp
    have h3 := (findImportedArmature_spec himp).2.2.1
    exact ⟨h3, hmid ▸ h3⟩
  · cases res with
    | err => exact ⟨master, hm, rfl, rfl, rfl, rfl, rfl, List.prefix_refl _⟩
    | ok newObjs sel =>
        obtain ⟨hfresh, hsel⟩ := hok newObjs sel rfl
        cases himp : findImportedArmature masterId (s ++ newObjs) sel with
        | none =>
            refine ⟨master, ?_, rfl, rfl, rfl, rfl, rfl, List.prefix_refl _⟩
            simp [processFile, himp]
            exact Or.inl hm
        | some imp =>
            cases hact : imp.animData.bind AnimData.action with
            | none =>
                refine ⟨master, ?_, rfl, rfl, rfl, rfl, rfl, List.prefix_refl _⟩
                simp [processFile, himp, hact]
                exact Or.inl hm
            | some act0 =>
                have hfields :=
                  @addTrackTo_fields masterId nm { act0 with name := nm }
                    master hmid
                refine ⟨addTrackTo masterId nm { act0 with name := nm } master,
                  master_survives_merge hm hmid hfresh hpar hsel himp hact,
                  hfields.1, hfields.2.1, hfields.2.2.1, hfields.2.2.2.1,
                  hfields.2.2.2.2.1, ?_⟩
                rw [hfields.2.2.2.2.2]
                exact ⟨_, rfl⟩

/-- Witness for C8 at a concrete iteration that merges successfully. -/
theorem master_never_deleted_witness :
    ∃ master',
      master' ∈ (processFile 0 "walk" [rigObj]
        (ImportRes.ok [impObjAct] [1])).1
      ∧ master'.id = rigObj.id ∧ master'.name = rigObj.name
      ∧ master'.otype = rigObj.otype ∧ master'.parent = rigObj.parent
      ∧ actionOf master' = actionOf rigObj
      ∧ tracksOf rigObj <+: tracksOf master' :=
  (master_never_deleted 0 "walk" [rigObj] (ImportRes.ok [impObjAct] [1])
    rigObj (by decide) (by decide) (by intro p h; simp [rigObj] at h)
    (by intro newObjs sel h
        injection h with h1 h2
        subst h1; subst h2
        exact ⟨by decide, by decide⟩)).2

end MergeAnimations
